import Mathlib

/-!
Shallow embedding of the speech-to-video frontend (`src/unnamed/part_000`,
the fuller variant of `src/web/src/pages/App.tsx`) together with
spec-modelled definitions for the backend components (Segment Planner,
Stitcher degradation, Playlist Store prune) whose code is not in `src/`.

Times are rationals (milliseconds), mirroring `performance.now()` values.
React state is a record; the `setInterval` progress timer is modelled by a
`timerActive` flag together with an explicit tick function evaluated at a
query time.
-/

/-- A playlist entry as the frontend sees it: the backend's
`{ts, url, note}` records returned by `/api/clips`. -/
structure Clip where
  ts : Option Nat
  url : String
  note : String
deriving DecidableEq, Repr

/-- The fields of the JSON body (`ApiResult`) that the two handlers read:
`video_url` (speech-to-video), `success` and `stitched_url` (stitch). -/
structure ApiResult where
  video_url : Option String
  success : Bool
  stitched_url : Option String
deriving DecidableEq, Repr

/-- Outcome of a `fetch` call: either the promise rejects (network error /
server restart) or a response arrives with a status code and a body that
either parses as JSON (`some`) or fails to parse (`none`). -/
inductive FetchOutcome where
  | networkError
  | response (status : Nat) (body : Option ApiResult)
deriving DecidableEq, Repr

/-- The React state of `App` that the claims are about: `videoUrl`,
`jsonOut` (kept as the parsed value rather than its JSON string),
`busy`, `statusMsg`, `progress` (a percentage), the progress interval
timer (`timerActive` models `progressTimer.current !== null`),
`pendingUrl`, the `startTsRef` / `expectedMsRef` refs, `loginRequired`,
and the `clips` list. -/
structure AppState where
  videoUrl : Option String
  jsonOut : Option ApiResult
  busy : Bool
  statusMsg : String
  progress : ℚ
  timerActive : Bool
  pendingUrl : Option String
  startTs : ℚ
  expectedMs : ℚ
  loginRequired : Bool
  clips : List Clip
deriving DecidableEq, Repr

/-- The initial `useState` / `useRef` values of `App`. -/
def initState : AppState :=
  { videoUrl := none
    jsonOut := none
    busy := false
    statusMsg := ""
    progress := 0
    timerActive := false
    pendingUrl := none
    startTs := 0
    expectedMs := 120000
    loginRequired := false
    clips := [] }

/-- The clamped value computed inside the progress interval callback:
`Math.min(elapsed / expectedMsRef.current, 0.995)`. -/
def ratioClamped (startTs expectedMs now : ℚ) : ℚ :=
  min ((now - startTs) / expectedMs) (995 / 1000)

/-- `beginProgress(message, expectedMs)`: sets the status message, resets
progress to 0, records the start timestamp and expected duration, and
(re)starts the interval timer. -/
def beginProgress (s : AppState) (message : String) (expectedMs now : ℚ) : AppState :=
  { s with statusMsg := message
           progress := 0
           startTs := now
           expectedMs := expectedMs
           timerActive := true }

/-- One firing of the interval callback installed by `beginProgress`,
evaluated at query time `now`: `setProgress(ratio * 100)`. -/
def progressTick (s : AppState) (now : ℚ) : AppState :=
  { s with progress := ratioClamped s.startTs s.expectedMs now * 100 }

/-- The linger delay in `endProgress`'s `setTimeout`. -/
def lingerMs : ℚ := 1200

/-- The synchronous part of `endProgress(finalMessage?)`: clear the
interval timer, set progress to 100, and set the final message when one
is given. -/
def endProgressImmediate (s : AppState) (finalMessage : Option String) : AppState :=
  { s with timerActive := false
           progress := 100
           statusMsg := match finalMessage with
                        | some m => m
                        | none => s.statusMsg }

/-- The deferred callback of `endProgress`'s `setTimeout`: clear the
status message and reset progress to 0. -/
def lingerReset (s : AppState) : AppState :=
  { s with statusMsg := ""
           progress := 0 }

/-- The state `dt` milliseconds after `endProgress(finalMessage?)` ran:
before `lingerMs` has elapsed only the synchronous part has happened;
from `lingerMs` on, the deferred reset has also fired. -/
def endProgressAt (s : AppState) (finalMessage : Option String) (dt : ℚ) : AppState :=
  if dt < lingerMs then endProgressImmediate s finalMessage
  else lingerReset (endProgressImmediate s finalMessage)

/-- `const remaining = Math.max(0, expectedMsRef.current - elapsed)` with
`elapsed = now - startTs`. -/
def remainingWait (startTs expectedMs now : ℚ) : ℚ :=
  max 0 (expectedMs - (now - startTs))

/-- The moment the deferred `finish` callback runs: `now` plus the
remaining wait (`setTimeout(finish, remaining)`, or immediately when
`remaining ≤ 0`). -/
def presentationTime (startTs expectedMs now : ℚ) : ℚ :=
  now + remainingWait startTs expectedMs now

/-- The calibrated expected duration passed to `beginProgress` by
`handleSpeechToVideo`: 120 000 ms. -/
def speechExpectedMs : ℚ := 120000

/-- `clipCountRef.current > 0 ? clipCountRef.current : clips.length`. -/
def effectiveClipCount (refCount listLen : Nat) : Nat :=
  if 0 < refCount then refCount else listLen

/-- The calibrated expected duration for stitching:
`45_000 * Math.max(1, Math.ceil(clipsCount / 2))`. -/
def stitchExpectedMs (clipsCount : Nat) : ℚ :=
  45000 * (max 1 ((clipsCount + 1) / 2) : Nat)

/-- `const url = stitched || API_BASE + "/api/stitched"` where
`stitched = (data.stitched_url as string) || ''` and `API_BASE` defaults
to the empty string. -/
def stitchUrl (d : ApiResult) : String :=
  match d.stitched_url with
  | some u => if u = "" then "/api/stitched" else u
  | none => "/api/stitched"

/-- Modelled from the spec: the Playlist Store backend behind
`POST /api/clips` is not under `src/`; per §4.6, auto-save of a stitched
result "applies a prune step first: any prior auto-saved stitched entries
for the same caller are removed before the new one is appended". The
frontend marks auto-saved stitched entries with the note `"Stitched"`
(`saveClipDirect(url, 'Stitched')`), so the prune removes entries bearing
that note, then appends the fresh entry with the store-issued timestamp. -/
def appendClipWithPrune (entries : List Clip) (newTs : Nat) (url note : String) : List Clip :=
  if note = "Stitched" then
    entries.filter (fun c => c.note ≠ "Stitched") ++ [⟨some newTs, url, note⟩]
  else
    entries ++ [⟨some newTs, url, note⟩]

/-- The resolution of one handler call: the settled component state (for
failure paths, at the early `return`; for the success path, after the
deferred `finish` has run) and, on the success path, the absolute time at
which `finish` runs. -/
structure HandleOutcome where
  state : AppState
  finishTime : Option ℚ
deriving DecidableEq, Repr

/-- The common failure exit of both handlers:
`clearProgressTimer(); setProgress(0); setStatusMsg(msg); return` followed
by the `finally { setBusy(false) }`. -/
def failExit (s : AppState) (msg : String) : AppState :=
  { s with timerActive := false
           progress := 0
           statusMsg := msg
           busy := false }

/-- The `resp.status === 401` branch shared by both handlers:
`setLoginRequired(true)` and then the same clear/reset/message exit. -/
def signInExit (s : AppState) : AppState :=
  { failExit s "Sign in required to continue." with loginRequired := true }

/-- `handleSpeechToVideo(file)` from `src/unnamed/part_000`, as a function
of the fetch outcome. `startNow` is the `performance.now()` inside
`beginProgress`; `doneNow` is the `performance.now()` read after the
video preload, from which the deferred-finish delay is computed. -/
def handleSpeechToVideo (s : AppState) (o : FetchOutcome) (startNow doneNow : ℚ) :
    HandleOutcome :=
  let s1 := { beginProgress s "Processing audio…" speechExpectedMs startNow with busy := true }
  match o with
  | .networkError => ⟨failExit s1 "Server restarted. Please retry.", none⟩
  | .response status body =>
    if status = 401 then ⟨signInExit s1, none⟩
    else
      match body with
      | none => ⟨failExit s1 "Server restarted. Please retry.", none⟩
      | some data =>
        let s2 := { s1 with jsonOut := some data }
        match data.video_url with
        | some url =>
          let s3 := { s2 with statusMsg := "Preparing video…", pendingUrl := some url }
          let t := presentationTime s3.startTs s3.expectedMs doneNow
          let s4 := endProgressImmediate
            { s3 with videoUrl := some url, pendingUrl := none } (some "Ready")
          ⟨{ s4 with busy := false }, some t⟩
        | none => ⟨failExit s2 "No video URL returned", none⟩

/-- `handleStitchSaved()` from `src/unnamed/part_000`, as a function of
the fetch outcome (after the user confirms). `refCount` is
`clipCountRef.current`; `newTs` is the timestamp the Playlist Store
issues for the auto-saved stitched entry. -/
def handleStitchSaved (s : AppState) (o : FetchOutcome) (startNow doneNow : ℚ)
    (refCount newTs : Nat) : HandleOutcome :=
  let expected := stitchExpectedMs (effectiveClipCount refCount s.clips.length)
  let s1 := { beginProgress s "Stitching saved clips…" expected startNow with busy := true }
  match o with
  | .networkError => ⟨failExit s1 "Server restarted. Please retry.", none⟩
  | .response status body =>
    if status = 401 then ⟨signInExit s1, none⟩
    else
      match body with
      | none => ⟨failExit s1 "Server restarted. Please retry.", none⟩
      | some data =>
        let s2 := { s1 with jsonOut := some data }
        if data.success then
          let url := stitchUrl data
          let s3 := { s2 with statusMsg := "Preparing video…", pendingUrl := some url }
          let t := presentationTime s3.startTs s3.expectedMs doneNow
          let s4 := endProgressImmediate
            { s3 with videoUrl := some url, pendingUrl := none } (some "Stitching complete")
          let s5 := { s4 with clips := appendClipWithPrune s4.clips newTs url "Stitched"
                              busy := false }
          ⟨s5, some t⟩
        else ⟨failExit s2 "Stitching failed", none⟩

/-- `list.splice(i, 1)`: remove the element at index `i`. -/
def spliceRemove (l : List Clip) (i : Nat) : List Clip :=
  l.take i ++ l.drop (i + 1)

/-- `list.splice(i, 0, a)`: insert `a` at index `i`. -/
def spliceInsert (l : List Clip) (i : Nat) (a : Clip) : List Clip :=
  l.take i ++ a :: l.drop i

/-- The list computed by the `onDrop` handler when entry `dragIndex` is
dropped onto entry `idx`: copy, splice the dragged entry out, splice it
back in at the target index. (The handler early-returns when
`dragIndex === idx`, leaving the list unchanged.) -/
def onDropReorder (clips : List Clip) (dragIndex idx : Nat) : List Clip :=
  if dragIndex = idx then clips
  else
    match clips.get? dragIndex with
    | none => clips
    | some moved => spliceInsert (spliceRemove clips dragIndex) idx moved

/-- The order string submitted to `/api/clips/reorder`, as a list of
timestamps: `newList.map(x => x.ts).filter(Boolean)`. -/
def submittedOrder (l : List Clip) : List Nat :=
  l.filterMap Clip.ts

/-- The failure postcondition of claim C10 for a handler outcome relative
to the pre-state: the displayed video URL is untouched, the interval
timer is cleared, progress is 0, and a non-empty status message is set. -/
def failureSettled (o : HandleOutcome) (pre : AppState) : Prop :=
  o.state.videoUrl = pre.videoUrl ∧
  o.state.timerActive = false ∧
  o.state.progress = 0 ∧
  o.state.statusMsg ≠ ""

/-- Error values of the spec-modelled Segment Planner. -/
inductive PlanError where
  | invalidDuration
deriving DecidableEq, Repr

/-- Modelled from the spec: the Segment Planner (§4.2) is backend code not
under `src/`. "If `D ≤ C`: single segment of duration `D`. Else:
`n = ceil(D / C)` segments"; the worked example in §8 splits `D = 25`,
`C = 10` into `(10, 10, 5)`, i.e. full-ceiling segments with the
remainder last. "Edge case: `D ≤ 0` fails with `InvalidDuration`." -/
def planSegments (D C : ℚ) : Except PlanError (List ℚ) :=
  if D ≤ 0 then .error .invalidDuration
  else if D ≤ C then .ok [D]
  else
    let n : Nat := (⌈D / C⌉).toNat
    .ok (List.replicate (n - 1) C ++ [D - (n - 1 : Nat) * C])

/-- Modelled from the spec: the Stitcher (§4.5) is backend code not under
`src/`. `composition` is the tagged composition capability (`none` when
unavailable); when available it is a function that may itself fail
(`none`). "If the composition capability is unavailable or fails, return
the first segment's artifact alone rather than failing the whole
request." An empty segment list has no artifact to return. -/
def stitchSegments (segs : List String)
    (composition : Option (List String → Option String)) : Option String :=
  match segs with
  | [] => none
  | first :: _ =>
    match composition with
    | none => some first
    | some compose =>
      match compose segs with
      | none => some first
      | some url => some url

/-! ## Theorems -/

lemma presentation_time_eq_max (st E now : ℚ) :
    presentationTime st E now = max now (st + E) := by
  have h1 : now + (E - (now - st)) = st + E := by ring
  unfold presentationTime remainingWait
  rw [← max_add_add_left, add_zero, h1]

/-- C1: the progress value reported at any query time `t` for a pending
operation started at `s.startTs` with calibrated `s.expectedMs` is
`min((t - startTs)/expectedMs, 0.995)` (scaled to a percentage for
display), and that ratio is strictly below 1, so 100% is never reported
before true completion is observed. -/
theorem progress_reported_is_clamped_ratio (s : AppState) (t : ℚ) :
    (progressTick s t).progress = ratioClamped s.startTs s.expectedMs t * 100 ∧
    ratioClamped s.startTs s.expectedMs t = min ((t - s.startTs) / s.expectedMs) (995 / 1000) ∧
    ratioClamped s.startTs s.expectedMs t < 1 := by
  refine ⟨rfl, rfl, ?_⟩
  calc ratioClamped s.startTs s.expectedMs t ≤ 995 / 1000 := min_le_right _ _
    _ < 1 := by norm_num

/-- C2: while one operation is pending (fixed `startTs` and positive
`expectedMs`), the progress values reported by successive timer ticks are
monotonically non-decreasing in the query time. -/
theorem progress_monotone (s : AppState) (t1 t2 : ℚ) (hE : 0 < s.expectedMs)
    (h : t1 ≤ t2) :
    (progressTick s t1).progress ≤ (progressTick s t2).progress := by
  have hr : ratioClamped s.startTs s.expectedMs t1 ≤ ratioClamped s.startTs s.expectedMs t2 := by
    unfold ratioClamped
    exact min_le_min ((div_le_div_iff_of_pos_right hE).mpr (sub_le_sub_right h _)) le_rfl
  simpa [progressTick] using mul_le_mul_of_nonneg_right hr (by norm_num : (0:ℚ) ≤ 100)

theorem progress_monotone_witness :
    (progressTick initState 0).progress ≤ (progressTick initState 60000).progress :=
  progress_monotone initState 0 60000 (by norm_num [initState]) (by norm_num)

/-- C3: on the success path of both handlers, the deferred `finish`
callback (which presents the final result) runs at
`max(doneNow, startTs + expectedMs)`: completion arriving early is held
for the remaining calibrated time, and when the remainder is ≤ 0 the
result is presented at `doneNow` with no extra wait. -/
theorem final_presentation_at_max_time (s : AppState) (data : ApiResult) (url : String)
    (status : Nat) (startNow doneNow : ℚ) (refCount newTs : Nat)
    (hstatus : status ≠ 401) (hurl : data.video_url = some url)
    (hsucc : data.success = true) :
    (handleSpeechToVideo s (.response status (some data)) startNow doneNow).finishTime
      = some (max doneNow (startNow + speechExpectedMs)) ∧
    (handleStitchSaved s (.response status (some data)) startNow doneNow refCount newTs).finishTime
      = some (max doneNow
          (startNow + stitchExpectedMs (effectiveClipCount refCount s.clips.length))) ∧
    (startNow + speechExpectedMs ≤ doneNow →
      (handleSpeechToVideo s (.response status (some data)) startNow doneNow).finishTime
        = some doneNow) := by
  have h1 : (handleSpeechToVideo s (.response status (some data)) startNow doneNow).finishTime
      = some (max doneNow (startNow + speechExpectedMs)) := by
    simp [handleSpeechToVideo, beginProgress, hstatus, hurl, presentation_time_eq_max]
  refine ⟨h1, ?_, ?_⟩
  · simp [handleStitchSaved, beginProgress, hstatus, hsucc, presentation_time_eq_max]
  · intro hle
    rw [h1, max_eq_left hle]

theorem final_presentation_at_max_time_witness :
    (handleSpeechToVideo initState
        (.response 200 (some ⟨some "u", true, some "v"⟩)) 0 50).finishTime
      = some (max 50 (0 + speechExpectedMs)) ∧
    (handleStitchSaved initState
        (.response 200 (some ⟨some "u", true, some "v"⟩)) 0 50 0 1).finishTime
      = some (max 50
          (0 + stitchExpectedMs (effectiveClipCount 0 initState.clips.length))) ∧
    (0 + speechExpectedMs ≤ 50 →
      (handleSpeechToVideo initState
          (.response 200 (some ⟨some "u", true, some "v"⟩)) 0 50).finishTime
        = some 50) :=
  final_presentation_at_max_time initState ⟨some "u", true, some "v"⟩ "u" 200 0 50 0 1
    (by decide) rfl rfl

/-- C9: once true completion is observed, `endProgress` finalizes progress
to exactly 100 — and it reads 100 exactly on the linger interval
`[0, lingerMs)`, so it is finalized exactly once before the reset — and
after the fixed linger interval of 1200 ms both the status message and
the progress value are reset to `""` and `0`. -/
theorem completion_finalize_and_linger_reset (s : AppState) (m : Option String) (dt : ℚ)
    (hdt : 0 ≤ dt) :
    ((endProgressAt s m dt).progress = 100 ↔ dt < lingerMs) ∧
    (lingerMs ≤ dt →
      (endProgressAt s m dt).statusMsg = "" ∧ (endProgressAt s m dt).progress = 0) ∧
    (endProgressAt s m dt).timerActive = false ∧
    lingerMs = 1200 := by
  by_cases h : dt < lingerMs
  · refine ⟨by simp [endProgressAt, endProgressImmediate, h], ?_, ?_, rfl⟩
    · intro hc
      exact absurd h (not_lt.mpr hc)
    · simp [endProgressAt, endProgressImmediate, h]
  · refine ⟨?_, ?_, ?_, rfl⟩
    · norm_num [endProgressAt, lingerReset, endProgressImmediate, h]
    · intro _
      simp [endProgressAt, lingerReset, endProgressImmediate, h]
    · simp [endProgressAt, lingerReset, endProgressImmediate, h]

theorem completion_finalize_and_linger_reset_witness :
    ((endProgressAt initState (some "Ready") 2000).progress = 100 ↔ (2000 : ℚ) < lingerMs) ∧
    (lingerMs ≤ (2000 : ℚ) →
      (endProgressAt initState (some "Ready") 2000).statusMsg = "" ∧
      (endProgressAt initState (some "Ready") 2000).progress = 0) ∧
    (endProgressAt initState (some "Ready") 2000).timerActive = false ∧
    lingerMs = 1200 :=
  completion_finalize_and_linger_reset initState (some "Ready") 2000 (by norm_num)

/-- C5 counterexample: a 403 response is not mapped to the sign-in-required
state — after `handleSpeechToVideo` (or `handleStitchSaved`) receives a
403 whose body carries no video URL, the login-required flag is still
`false` and no sign-in message is shown; only 401 is special-cased. -/
theorem forbidden_response_not_mapped_to_sign_in :
    (handleSpeechToVideo initState
        (.response 403 (some ⟨none, false, none⟩)) 0 0).state.loginRequired = false ∧
    (handleStitchSaved initState
        (.response 403 (some ⟨none, false, none⟩)) 0 0 0 1).state.loginRequired = false ∧
    (handleSpeechToVideo initState
        (.response 403 (some ⟨none, false, none⟩)) 0 0).state.statusMsg
      ≠ "Sign in required to continue." := by
  refine ⟨rfl, rfl, ?_⟩
  decide

/-- C5 (amended): a 401 response from the generate or stitch operation is
mapped to the sign-in-required state — login-required flag set, progress
timer cleared with progress 0, and the sign-in status message shown —
while a 403 falls through to ordinary response handling. -/
theorem unauthorized_maps_to_sign_in (s : AppState) (body : Option ApiResult)
    (startNow doneNow : ℚ) (refCount newTs : Nat) :
    (handleSpeechToVideo s (.response 401 body) startNow doneNow).state.loginRequired = true ∧
    (handleSpeechToVideo s (.response 401 body) startNow doneNow).state.progress = 0 ∧
    (handleSpeechToVideo s (.response 401 body) startNow doneNow).state.timerActive = false ∧
    (handleSpeechToVideo s (.response 401 body) startNow doneNow).state.statusMsg
      = "Sign in required to continue." ∧
    (handleStitchSaved s (.response 401 body) startNow doneNow refCount newTs).state.loginRequired
      = true ∧
    (handleStitchSaved s (.response 401 body) startNow doneNow refCount newTs).state.progress = 0 ∧
    (handleStitchSaved s (.response 401 body) startNow doneNow refCount newTs).state.timerActive
      = false ∧
    (handleStitchSaved s (.response 401 body) startNow doneNow refCount newTs).state.statusMsg
      = "Sign in required to continue." := by
  refine ⟨?_, ?_, ?_, ?_, ?_, ?_, ?_, ?_⟩ <;>
    simp [handleSpeechToVideo, handleStitchSaved, signInExit, failExit, beginProgress]

/-- C10: on every failure path of `handleSpeechToVideo` (network error,
unparsable JSON body, missing `video_url`) and `handleStitchSaved`
(network error, unparsable JSON body, unsuccessful stitch result), the
displayed video URL is left unchanged, the progress timer is cleared with
progress reset to 0, and a non-empty status message is set. -/
theorem failure_paths_settle (s : AppState) (startNow doneNow : ℚ) (status : Nat)
    (data : ApiResult) (refCount newTs : Nat) (hstatus : status ≠ 401) :
    failureSettled (handleSpeechToVideo s .networkError startNow doneNow) s ∧
    failureSettled (handleSpeechToVideo s (.response status none) startNow doneNow) s ∧
    (data.video_url = none →
      failureSettled (handleSpeechToVideo s (.response status (some data)) startNow doneNow) s) ∧
    failureSettled (handleStitchSaved s .networkError startNow doneNow refCount newTs) s ∧
    failureSettled (handleStitchSaved s (.response status none) startNow doneNow refCount newTs) s ∧
    (data.success = false →
      failureSettled
        (handleStitchSaved s (.response status (some data)) startNow doneNow refCount newTs) s) := by
  refine ⟨?_, ?_, fun hurl => ?_, ?_, ?_, fun hsucc => ?_⟩ <;>
    simp [failureSettled, handleSpeechToVideo, handleStitchSaved, failExit, beginProgress,
      hstatus, *]

theorem failure_paths_settle_witness :
    failureSettled (handleSpeechToVideo initState .networkError 0 0) initState ∧
    failureSettled (handleSpeechToVideo initState (.response 500 none) 0 0) initState ∧
    ((⟨none, false, none⟩ : ApiResult).video_url = none →
      failureSettled
        (handleSpeechToVideo initState (.response 500 (some ⟨none, false, none⟩)) 0 0) initState) ∧
    failureSettled (handleStitchSaved initState .networkError 0 0 0 1) initState ∧
    failureSettled (handleStitchSaved initState (.response 500 none) 0 0 0 1) initState ∧
    ((⟨none, false, none⟩ : ApiResult).success = false →
      failureSettled
        (handleStitchSaved initState
          (.response 500 (some ⟨none, false, none⟩)) 0 0 0 1) initState) :=
  failure_paths_settle initState 0 0 500 ⟨none, false, none⟩ 0 1 (by decide)

lemma filter_prune_nil (entries : List Clip) :
    (entries.filter (fun c => c.note ≠ "Stitched")).filter (fun c => c.note = "Stitched")
      = [] := by
  induction entries with
  | nil => rfl
  | cons c l ih =>
    by_cases h : c.note = "Stitched" <;> simp [List.filter_cons, h, ih]

lemma filter_prune_idem (entries : List Clip) :
    (entries.filter (fun c => c.note ≠ "Stitched")).filter (fun c => c.note ≠ "Stitched")
      = entries.filter (fun c => c.note ≠ "Stitched") := by
  induction entries with
  | nil => rfl
  | cons c l ih =>
    by_cases h : c.note = "Stitched" <;> simp [List.filter_cons, h, ih]

/-- C6: after a successful stitch, `handleStitchSaved` auto-saves the
stitched artifact through the store's append-with-prune: the resulting
playlist holds exactly one `"Stitched"`-noted entry (the new one), that
entry is appended at the end, all prior stitched entries are removed, and
the non-stitched entries are preserved. -/
theorem stitched_autosave_prunes_then_appends (s : AppState) (data : ApiResult)
    (status : Nat) (startNow doneNow : ℚ) (refCount newTs : Nat)
    (hstatus : status ≠ 401) (hsucc : data.success = true) :
    (handleStitchSaved s (.response status (some data))
        startNow doneNow refCount newTs).state.clips
      = appendClipWithPrune s.clips newTs (stitchUrl data) "Stitched" ∧
    (appendClipWithPrune s.clips newTs (stitchUrl data) "Stitched").filter
        (fun c => c.note = "Stitched")
      = [⟨some newTs, stitchUrl data, "Stitched"⟩] ∧
    (appendClipWithPrune s.clips newTs (stitchUrl data) "Stitched").getLast?
      = some ⟨some newTs, stitchUrl data, "Stitched"⟩ ∧
    (appendClipWithPrune s.clips newTs (stitchUrl data) "Stitched").filter
        (fun c => c.note ≠ "Stitched")
      = s.clips.filter (fun c => c.note ≠ "Stitched") := by
  refine ⟨?_, ?_, ?_, ?_⟩
  · simp [handleStitchSaved, hstatus, hsucc, beginProgress, endProgressImmediate]
  · simp [appendClipWithPrune, List.filter_append, filter_prune_nil, List.filter_cons]
  · simp [appendClipWithPrune, List.getLast?_concat]
  · simp [appendClipWithPrune, List.filter_append, filter_prune_idem, List.filter_cons]

theorem stitched_autosave_prunes_then_appends_witness :
    (handleStitchSaved
        { initState with clips := [⟨some 1, "a", "Stitched"⟩, ⟨some 2, "b", ""⟩] }
        (.response 200 (some ⟨none, true, some "u"⟩)) 0 0 0 7).state.clips
      = appendClipWithPrune [⟨some 1, "a", "Stitched"⟩, ⟨some 2, "b", ""⟩] 7
          (stitchUrl ⟨none, true, some "u"⟩) "Stitched" ∧
    (appendClipWithPrune [⟨some 1, "a", "Stitched"⟩, ⟨some 2, "b", ""⟩] 7
        (stitchUrl ⟨none, true, some "u"⟩) "Stitched").filter
        (fun c => c.note = "Stitched")
      = [⟨some 7, stitchUrl ⟨none, true, some "u"⟩, "Stitched"⟩] ∧
    (appendClipWithPrune [⟨some 1, "a", "Stitched"⟩, ⟨some 2, "b", ""⟩] 7
        (stitchUrl ⟨none, true, some "u"⟩) "Stitched").getLast?
      = some ⟨some 7, stitchUrl ⟨none, true, some "u"⟩, "Stitched"⟩ ∧
    (appendClipWithPrune [⟨some 1, "a", "Stitched"⟩, ⟨some 2, "b", ""⟩] 7
        (stitchUrl ⟨none, true, some "u"⟩) "Stitched").filter
        (fun c => c.note ≠ "Stitched")
      = ([⟨some 1, "a", "Stitched"⟩, ⟨some 2, "b", ""⟩] : List Clip).filter
          (fun c => c.note ≠ "Stitched") :=
  stitched_autosave_prunes_then_appends
    { initState with clips := [⟨some 1, "a", "Stitched"⟩, ⟨some 2, "b", ""⟩] }
    ⟨none, true, some "u"⟩ 200 0 0 0 7 (by decide) rfl

lemma spliceInsert_perm (l : List Clip) (i : Nat) (a : Clip) :
    List.Perm (spliceInsert l i a) (a :: l) := by
  unfold spliceInsert
  have h1 : List.Perm (l.take i ++ a :: l.drop i) (a :: (l.take i ++ l.drop i)) :=
    List.perm_middle
  rwa [List.take_append_drop] at h1

lemma spliceRemove_cons_perm (l : List Clip) (i : Nat) (c : Clip)
    (h : l.get? i = some c) : List.Perm l (c :: spliceRemove l i) := by
  obtain ⟨hi, hc0⟩ := List.get?_eq_some.mp h
  have hc : l[i] = c := by simpa [List.get_eq_getElem] using hc0
  have hsplit : l = l.take i ++ c :: l.drop (i + 1) := by
    conv_lhs => rw [← List.take_append_drop i l, ← List.getElem_cons_drop l i hi]
    rw [hc]
  have h2 : List.Perm (l.take i ++ c :: l.drop (i + 1))
      (c :: (l.take i ++ l.drop (i + 1))) := List.perm_middle
  nth_rewrite 1 [hsplit]
  exact h2

lemma spliceInsert_getElem_self (l : List Clip) (i : Nat) (a : Clip) (h : i ≤ l.length) :
    (spliceInsert l i a)[i]? = some a := by
  unfold spliceInsert
  have hlen : (l.take i).length = i := by
    simp only [List.length_take]
    omega
  rw [List.getElem?_append_right (le_of_eq hlen), hlen]
  simp

lemma filterMap_ts_of_all_some (l : List Clip)
    (h : ∀ c ∈ l, (Clip.ts c).isSome) :
    (l.filterMap Clip.ts).map some = l.map Clip.ts := by
  induction l with
  | nil => rfl
  | cons c l ih =>
    obtain ⟨v, hv⟩ := Option.isSome_iff_exists.mp (h c (by simp))
    simp only [List.filterMap_cons, hv, List.map_cons]
    exact congrArg (some v :: ·) (ih fun x hx => h x (by simp [hx]))

/-- C7: dropping the entry at `dragIndex` onto a different index `idx`
yields a permutation of the previous clip list — same length, nothing
lost or duplicated — with the moved entry at position `idx`, and (when
every entry carries a timestamp) the submitted order is exactly the full
timestamp order of the new list. -/
theorem reorder_is_permutation (clips : List Clip) (dragIndex idx : Nat) (moved : Clip)
    (hi : clips.get? dragIndex = some moved) (hj : idx < clips.length)
    (hne : dragIndex ≠ idx) :
    (onDropReorder clips dragIndex idx).Perm clips ∧
    (onDropReorder clips dragIndex idx).length = clips.length ∧
    (onDropReorder clips dragIndex idx)[idx]? = some moved ∧
    ((clips.all fun c => (Clip.ts c).isSome) = true →
      (submittedOrder (onDropReorder clips dragIndex idx)).map some
        = (onDropReorder clips dragIndex idx).map Clip.ts) := by
  have hlen : clips.length = (spliceRemove clips dragIndex).length + 1 := by
    simpa using (spliceRemove_cons_perm clips dragIndex moved hi).length_eq
  have hnew : onDropReorder clips dragIndex idx
      = spliceInsert (spliceRemove clips dragIndex) idx moved := by
    unfold onDropReorder
    rw [if_neg hne, hi]
  have hperm : (onDropReorder clips dragIndex idx).Perm clips := by
    rw [hnew]
    exact (spliceInsert_perm _ _ _).trans (spliceRemove_cons_perm clips dragIndex moved hi).symm
  refine ⟨hperm, hperm.length_eq, ?_, ?_⟩
  · rw [hnew]
    exact spliceInsert_getElem_self _ _ _ (by omega)
  · intro hall
    apply filterMap_ts_of_all_some
    intro c hc
    exact List.all_eq_true.mp hall c (hperm.mem_iff.mp hc)

theorem reorder_is_permutation_witness :
    (onDropReorder [⟨some 1, "a", ""⟩, ⟨some 2, "b", ""⟩, ⟨some 3, "c", ""⟩] 0 2).Perm
      [⟨some 1, "a", ""⟩, ⟨some 2, "b", ""⟩, ⟨some 3, "c", ""⟩] ∧
    (onDropReorder [⟨some 1, "a", ""⟩, ⟨some 2, "b", ""⟩, ⟨some 3, "c", ""⟩] 0 2).length
      = ([⟨some 1, "a", ""⟩, ⟨some 2, "b", ""⟩, ⟨some 3, "c", ""⟩] : List Clip).length ∧
    (onDropReorder [⟨some 1, "a", ""⟩, ⟨some 2, "b", ""⟩, ⟨some 3, "c", ""⟩] 0 2)[2]?
      = some ⟨some 1, "a", ""⟩ ∧
    ((([⟨some 1, "a", ""⟩, ⟨some 2, "b", ""⟩, ⟨some 3, "c", ""⟩] : List Clip).all
        fun c => (Clip.ts c).isSome) = true →
      (submittedOrder
          (onDropReorder [⟨some 1, "a", ""⟩, ⟨some 2, "b", ""⟩, ⟨some 3, "c", ""⟩] 0 2)).map some
        = (onDropReorder [⟨some 1, "a", ""⟩, ⟨some 2, "b", ""⟩, ⟨some 3, "c", ""⟩] 0 2).map
            Clip.ts) :=
  reorder_is_permutation [⟨some 1, "a", ""⟩, ⟨some 2, "b", ""⟩, ⟨some 3, "c", ""⟩] 0 2
    ⟨some 1, "a", ""⟩ rfl (by decide) (by decide)

/-- C4 (spec-modelled planner): for every `D > 0` and ceiling `C > 0`,
`planSegments` succeeds with exactly `⌈D / C⌉` segments whose durations
sum exactly to `D` and are each at most `C`. -/
theorem planner_segments_spec (D C : ℚ) (hD : 0 < D) (hC : 0 < C) :
    (planSegments D C).map
        (fun segs => (segs.length, segs.sum, segs.all fun x => x ≤ C))
      = .ok ((⌈D / C⌉).toNat, D, true) := by
  unfold planSegments
  rw [if_neg (not_le.mpr hD)]
  by_cases hDC : D ≤ C
  · rw [if_pos hDC]
    have hceil : ⌈D / C⌉ = 1 := by
      rw [Int.ceil_eq_iff]
      constructor
      · simpa using div_pos hD hC
      · simpa using (div_le_one hC).mpr hDC
    simp [Except.map, hceil, hDC]
  · rw [if_neg hDC]
    push_neg at hDC
    set n : ℕ := (⌈D / C⌉).toNat with hn
    have hceil_pos : (0 : ℤ) < ⌈D / C⌉ := Int.ceil_pos.mpr (div_pos hD hC)
    have hcast : (n : ℤ) = ⌈D / C⌉ := Int.toNat_of_nonneg (le_of_lt hceil_pos)
    have h2 : 1 < ⌈D / C⌉ := by
      rw [Int.lt_ceil]
      exact_mod_cast (one_lt_div hC).mpr hDC
    have hn2 : 2 ≤ n := by omega
    have hleD : D / C ≤ (n : ℚ) := by
      have h := Int.le_ceil (D / C)
      rw [← hcast] at h
      exact_mod_cast h
    have hDle : D ≤ (n : ℚ) * C := (div_le_iff₀ hC).mp hleD
    have hsub : ((n - 1 : ℕ) : ℚ) = (n : ℚ) - 1 := by
      push_cast [Nat.cast_sub (by omega : 1 ≤ n)]
      ring
    simp only [Except.map]
    refine congrArg Except.ok ?_
    refine Prod.ext ?_ (Prod.ext ?_ ?_)
    · simp only [List.length_append, List.length_replicate, List.length_cons,
        List.length_nil]
      omega
    · simp only [List.sum_append, List.sum_replicate, List.sum_cons, List.sum_nil,
        nsmul_eq_mul]
      rw [hsub]
      ring
    · rw [List.all_eq_true]
      intro x hx
      rcases List.mem_append.mp hx with hx1 | hx2
      · have := List.eq_of_mem_replicate hx1
        simp [this]
      · have hx3 : x = D - ((n - 1 : ℕ) : ℚ) * C := by simpa using hx2
        rw [hx3, hsub]
        simp only [decide_eq_true_eq]
        nlinarith

theorem planner_segments_spec_witness :
    (planSegments 25 10).map
        (fun segs => (segs.length, segs.sum, segs.all fun x => x ≤ (10 : ℚ)))
      = .ok ((⌈(25 : ℚ) / 10⌉).toNat, 25, true) :=
  planner_segments_spec 25 10 (by norm_num) (by norm_num)

/-- C8 (spec-modelled stitcher): for a stitch over one or more segments,
both an unavailable composition capability and a failing composition call
degrade to the first segment's artifact instead of failing the request. -/
theorem stitch_degrades_to_first_segment (first : String) (rest : List String)
    (compose : List String → Option String)
    (hfail : compose (first :: rest) = none) :
    stitchSegments (first :: rest) none = some first ∧
    stitchSegments (first :: rest) (some compose) = some first := by
  refine ⟨rfl, ?_⟩
  simp [stitchSegments, hfail]

theorem stitch_degrades_to_first_segment_witness :
    stitchSegments ["s1", "s2", "s3"] none = some "s1" ∧
    stitchSegments ["s1", "s2", "s3"] (some fun _ => none) = some "s1" :=
  stitch_degrades_to_first_segment "s1" ["s2", "s3"] (fun _ => none) rfl
